import Mathlib

/-!
Verification development for the octo-server HTTP/1.1 server (Go).

The wire data is modelled as a `List Char` byte stream (the server treats
bytes as string data throughout).  Go maps from string to string are
modelled as association lists with overwrite-on-insert (`hset`), matching
Go map assignment; lookup order is first match (`hget`), which agrees with
Go maps because `hset` keeps at most one entry per key.

Functions are named after the Go functions they embed (src/app/main.go,
src/app/connection.go of the final iteration, the one whose `ConnHandler`
holds `req *Request` and `resp *Response`).
-/

/-- Convert a Lean string literal to the byte-stream representation. -/
def listOf (s : String) : List Char := s.data

/-- CRLF, the HTTP/1.1 line terminator (src/app/connection.go, `CRLF`). -/
def CRLF : List Char := ['\r', '\n']

/-- Characters trimmed by Go strings.TrimSpace (unicode.IsSpace over the
ASCII range plus U+0085 and U+00A0). -/
def isGoSpace (c : Char) : Bool :=
  c == ' ' || c == '\t' || c == '\n' || c == '\x0B' || c == '\x0C' || c == '\r' ||
  c == '\x85' || c == '\xA0'

/-- Go strings.TrimSpace on the byte-stream representation. -/
def goTrim (l : List Char) : List Char :=
  ((l.dropWhile isGoSpace).reverse.dropWhile isGoSpace).reverse

/-- Go strings.Split with a one-character separator: the result always has
one more part than there are separators; splitting the empty string yields
one empty part, exactly as in Go. -/
def splitOnChar (sep : Char) : List Char → List (List Char)
  | [] => [[]]
  | c :: t =>
    let r := splitOnChar sep t
    if c = sep then [] :: r
    else (c :: r.headD []) :: r.tail

/-- Go strings.Join with a one-character separator. -/
def joinSep (sep : Char) : List (List Char) → List Char
  | [] => []
  | [x] => x
  | x :: y :: t => x ++ sep :: joinSep sep (y :: t)

/-- Request/response header maps (Go map from string to string). -/
abbrev HMap := List (List Char × List Char)

/-- Go map lookup `m[k]`. -/
def hget : HMap → List Char → Option (List Char)
  | [], _ => none
  | (k, v) :: t, key => if k = key then some v else hget t key

/-- Go map assignment `m[k] = v` (overwrites an existing entry). -/
def hset : HMap → List Char → List Char → HMap
  | [], k, v => [(k, v)]
  | (k0, v0) :: t, k, v => if k0 = k then (k, v) :: t else (k0, v0) :: hset t k v

/-- Digit-string accumulator used by `goAtoi`. -/
def digitsVal (acc : Nat) : List Char → Option Nat
  | [] => some acc
  | c :: t => if c.isDigit then digitsVal (acc * 10 + (c.toNat - '0'.toNat)) t else none

/-- All-digit parse; the empty string is an error. -/
def digitsToNat : List Char → Option Nat
  | [] => none
  | l => digitsVal 0 l

/-- Go strconv.Atoi on a 64-bit platform: optional sign followed by at
least one digit, and the value must fit a 64-bit int — a magnitude past
the int range is the ErrRange error (`none` here, since the only caller
treats any non-nil error alike), at most 2^63 - 1 for a non-negative
value and 2^63 for a negative one. -/
def goAtoi (s : List Char) : Option Int :=
  match s with
  | '+' :: rest =>
    (digitsToNat rest).bind (fun n => if n < 2 ^ 63 then some (Int.ofNat n) else none)
  | '-' :: rest =>
    (digitsToNat rest).bind (fun n => if n ≤ 2 ^ 63 then some (-(Int.ofNat n)) else none)
  | _ =>
    (digitsToNat s).bind (fun n => if n < 2 ^ 63 then some (Int.ofNat n) else none)

/-- Decimal rendering of a length, as produced by fmt.Sprint on an int
(all lengths printed by the server are non-negative). -/
def natChars (n : Nat) : List Char := (Nat.repr n).data

/-- Literal-prefix test (Go strings.HasPrefix shape), used to model the
two compiled route patterns. -/
def leadsWith : List Char → List Char → Bool
  | [], _ => true
  | _ :: _, [] => false
  | p :: ps, c :: cs => p == c && leadsWith ps cs

/-- Model of Go regexp search for the two route patterns, which have the
shape "literal followed by a capture of dot-star": RE2 picks the match at
the leftmost starting position, so `afterFirst pat s` returns the part of
`s` after the first occurrence of the literal `pat`, or `none` when `pat`
does not occur. -/
def afterFirst (pat : List Char) : List Char → Option (List Char)
  | [] => if pat = [] then some [] else none
  | c :: t => if leadsWith pat (c :: t) then some ((c :: t).drop pat.length) else afterFirst pat t

/-- `EchoEndpointRegx.Match` / `FileEndpointRegx.Match` (src/app/main.go
lines 16-19): the patterns are unanchored, so they match exactly when the
literal part occurs somewhere in the target. -/
def reMatch (pat s : List Char) : Bool := (afterFirst pat s).isSome

/-- `FindStringSubmatch(...)[1]` for the route patterns: the greedy
dot-star capture extends from just after the first occurrence of the
literal to the end of the line, but RE2 dot does not match a newline, so
the capture stops at the first newline character. -/
def reCapture (pat s : List Char) : Option (List Char) :=
  (afterFirst pat s).map (List.takeWhile (fun c => c != '\n'))

/-- Literal part of `EchoEndpointRegx` (src/app/main.go line 17). -/
def echoPat : List Char := listOf "/echo/"

/-- Literal part of `FileEndpointRegx` (src/app/main.go line 18). -/
def filesPat : List Char := listOf "/files/"

/-- Result of one `readUntilCRLF` call: either a line with the CRLF
stripped plus the rest of the stream, or end of stream together with the
bytes accumulated so far (the Go function returns them with io.EOF). -/
inductive LineRead where
  | line (l : List Char) (rest : List Char)
  | eof (sofar : List Char)
deriving Repr, DecidableEq

/-- Loop body of `readUntilCRLF` (src/app/connection.go lines 314-335):
append one byte and stop when the last two accumulated bytes are CRLF. -/
def readUntilCRLFAux : List Char → List Char → LineRead
  | acc, [] => .eof acc
  | acc, b :: t =>
    let acc2 := acc ++ [b]
    if acc2.drop (acc2.length - 2) = CRLF
    then .line (acc2.take (acc2.length - 2)) t
    else readUntilCRLFAux acc2 t

/-- `readUntilCRLF` reads from the stream until a CRLF sequence. -/
def readUntilCRLF (s : List Char) : LineRead := readUntilCRLFAux [] s

/-- Parsed request line plus headers (struct `Request`,
src/app/connection.go lines 208-214). -/
structure Request where
  HTTPMethod : List Char
  RequestTarget : List Char
  HTTPVersion : List Char
  Headers : HMap
deriving Repr, DecidableEq

/-- Result of `readReqLine`: io.EOF is distinguished from the
"invalid request line" error because the caller treats them differently;
a non-EOF error leaves the stream positioned after the consumed line. -/
inductive RLRes where
  | ok (r : Request) (rest : List Char)
  | errEOF
  | errInvalid (rest : List Char)
deriving Repr, DecidableEq

/-- `readReqLine` (src/app/connection.go lines 338-354): split the line on
single spaces and require exactly 3 tokens; the tokens become method,
target and version with no further validation.  The Headers field starts
as the zero value (empty map) and is filled in by `NewConnHandler`. -/
def readReqLine (s : List Char) : RLRes :=
  match readUntilCRLF s with
  | .eof _ => .errEOF
  | .line l rest =>
    let tokens := splitOnChar ' ' l
    if tokens.length = 3 then
      .ok ⟨tokens.getD 0 [], tokens.getD 1 [], tokens.getD 2 [], []⟩ rest
    else .errInvalid rest

/-- Result of `readReqHeaders`, with the same EOF distinction as `RLRes`. -/
inductive HdrRes where
  | ok (m : HMap) (rest : List Char)
  | errEOF
  | errInvalid (rest : List Char)
deriving Repr, DecidableEq

/-- Loop of `readReqHeaders` (src/app/connection.go lines 357-379),
written with a fuel parameter so that the definition is structurally
recursive and computable by the kernel; `readReqHeadersFrom` supplies
fuel strictly larger than the stream length, which is always sufficient
because every iteration consumes at least the two CRLF bytes
(`readReqHeadersAux_congr` below shows the fuel does not matter).
Each non-empty line is split on ":"; fewer than 2 tokens is the
"invalid header" error; otherwise the trimmed first token maps to the
trimmed rejoin of the remaining tokens. -/
def readReqHeadersAux : Nat → HMap → List Char → HdrRes
  | 0, _, _ => .errEOF
  | fuel+1, m, s =>
    match readUntilCRLF s with
    | .eof _ => .errEOF
    | .line l rest =>
      if l = [] then .ok m rest
      else
        let tokens := splitOnChar ':' l
        if tokens.length < 2 then .errInvalid rest
        else readReqHeadersAux fuel (hset m (goTrim (tokens.getD 0 [])) (goTrim (joinSep ':' (tokens.drop 1)))) rest

/-- Header-block parse starting from an accumulated map. -/
def readReqHeadersFrom (m : HMap) (s : List Char) : HdrRes :=
  readReqHeadersAux (s.length + 1) m s

/-- `readReqHeaders` (src/app/connection.go lines 357-379). -/
def readReqHeaders (s : List Char) : HdrRes := readReqHeadersFrom [] s

/-- Response under construction (struct `Response`,
src/app/connection.go lines 217-222). -/
structure Response where
  StatusCode : Nat
  Status : List Char
  Headers : HMap
deriving Repr, DecidableEq

/-- Connection handler state as the endpoint handlers see it: the parsed
request plus the response under construction (struct `ConnHandler`,
src/app/connection.go lines 201-205, with the `resp` pointer dereferenced;
`NewConnHandler` below models the fact that in this code the pointer is
in fact nil). -/
structure ConnHandler where
  req : Request
  resp : Response
deriving Repr, DecidableEq

/-- `(*ConnHandler).Status` (src/app/connection.go lines 270-285): sets
the code and the status text from the fixed lookup table; an unmapped
code leaves the previous text. -/
def ConnHandler.Status (c : ConnHandler) (code : Nat) : ConnHandler :=
  { c with resp := { c.resp with
      StatusCode := code,
      Status :=
        if code = 200 then listOf "OK"
        else if code = 201 then listOf "Created"
        else if code = 400 then listOf "Bad Request"
        else if code = 404 then listOf "Not Found"
        else if code = 500 then listOf "Internal Server Error"
        else c.resp.Status } }

/-- `(*ConnHandler).Header` (src/app/connection.go lines 288-290). -/
def ConnHandler.Header (c : ConnHandler) (key val : List Char) : ConnHandler :=
  { c with resp := { c.resp with Headers := hset c.resp.Headers key val } }

/-- A finalized response as written to the wire by `(*ConnHandler).Body`
(src/app/connection.go lines 293-310).  The serialization order of the
header map is Go-map nondeterministic, so the response is kept in
component form: status line parts, header map, body bytes. -/
structure Wire where
  StatusCode : Nat
  Status : List Char
  Headers : HMap
  body : List Char
deriving Repr, DecidableEq

/-- `(*ConnHandler).Body`: snapshot the accumulated status and headers
together with the body bytes (a nil body serializes to zero bytes). -/
def ConnHandler.Body (c : ConnHandler) (blob : List Char) : Wire :=
  ⟨c.resp.StatusCode, c.resp.Status, c.resp.Headers, blob⟩

/-- Result of `ReadRequestBody` (src/app/connection.go lines 249-267):
`err` covers both the explicit "Content-Length is missing" error and an
Atoi failure; `panicked` is the runtime panic of `make([]byte, n)` on a
negative parsed length. -/
inductive BodyRes where
  | ok (b : List Char) (rest : List Char)
  | err
  | panicked
deriving Repr, DecidableEq

/-- `ReadRequestBody`: requires Content-Length, parses it with Atoi, then
performs a single `conn.Read` into a fresh n-byte buffer and returns the
whole buffer (io.EOF from the read is tolerated).  On the deterministic
stream the single read yields `min n (length s)` bytes, so the returned
buffer is the available bytes padded with zero bytes up to n. -/
def ReadRequestBody (headers : HMap) (s : List Char) : BodyRes :=
  match hget headers (listOf "Content-Length") with
  | none => .err
  | some strContLen =>
    match goAtoi strContLen with
    | none => .err
    | some contLen =>
      if contLen < 0 then .panicked
      else
        let n := contLen.toNat
        .ok (s.take n ++ List.replicate (n - s.length) '\x00') (s.drop n)

/-- `RootHandler` (src/app/main.go lines 22-25). -/
def RootHandler (c : ConnHandler) : Wire := (c.Status 200).Body []

/-- `NotFoundHandler` (src/app/main.go lines 28-31). -/
def NotFoundHandler (c : ConnHandler) : Wire := (c.Status 404).Body []

/-- `BadReqHandler` (src/app/main.go lines 34-37). -/
def BadReqHandler (c : ConnHandler) : Wire := (c.Status 400).Body []

/-- `InternalServerErrHandler` (src/app/main.go lines 40-43). -/
def InternalServerErrHandler (c : ConnHandler) : Wire := (c.Status 500).Body []

/-- Compression decision of `EchoHandler` (src/app/main.go lines 50-59):
true exactly when the Accept-Encoding header is present and one of its
comma-separated tokens trims to "gzip". -/
def shouldCompress (hs : HMap) : Bool :=
  match hget hs (listOf "Accept-Encoding") with
  | none => false
  | some v => (splitOnChar ',' v).any (fun tok => decide (goTrim tok = listOf "gzip"))

/-- `EchoHandler` (src/app/main.go lines 46-84), parameterized by the
gzip codec (`compress/gzip` is external to the repository; writing to a
bytes.Buffer cannot fail, so the 500 branch for a failed write is
unreachable and not modelled).  The captured value comes from
`FindStringSubmatch` on the request target. -/
def EchoHandler (compress : List Char → List Char) (c : ConnHandler) : Wire :=
  let str := (reCapture echoPat c.req.RequestTarget).getD []
  if shouldCompress c.req.Headers then
    let b := compress str
    ((((c.Status 200).Header (listOf "Content-Type") (listOf "text/plain")).Header
        (listOf "Content-Encoding") (listOf "gzip")).Header
        (listOf "Content-Length") (natChars b.length)).Body b
  else
    (((c.Status 200).Header (listOf "Content-Type") (listOf "text/plain")).Header
        (listOf "Content-Length") (natChars str.length)).Body str

/-- Outcome of `UserAgentHandler`: either a response or `os.Exit`. -/
inductive UAOut where
  | resp (w : Wire)
  | exits (code : Nat)
deriving Repr, DecidableEq

/-- `UserAgentHandler` (src/app/main.go lines 87-98): with no User-Agent
header the process exits with code 1; otherwise 200 text/plain with the
header value as body. -/
def UserAgentHandler (c : ConnHandler) : UAOut :=
  match hget c.req.Headers (listOf "User-Agent") with
  | none => .exits 1
  | some v =>
    .resp ((((c.Status 200).Header (listOf "Content-Type") (listOf "text/plain")).Header
        (listOf "Content-Length") (natChars v.length)).Body v)

/-- Outcome of `os.Open` plus `io.ReadAll` on a file, as distinguished by
`GetFileHandler`. -/
inductive FOpen where
  | content (b : List Char)
  | readFails
  | notExist
  | openErr

/-- External filesystem capability: open/read a path, write a path
(src/app/main.go treats the filesystem as an external collaborator). -/
structure FileStore where
  openFile : List Char → FOpen
  writeFile : List Char → List Char → Bool

/-- `GetFileHandler` (src/app/main.go lines 101-128): 404 when the file
does not exist, 500 on any other open or read error, otherwise 200 with
the file bytes as application/octet-stream. -/
def GetFileHandler (fs : FileStore) (c : ConnHandler) (dir filename : List Char) : Wire :=
  match fs.openFile (dir ++ '/' :: filename) with
  | .notExist => NotFoundHandler c
  | .openErr => InternalServerErrHandler c
  | .readFails => InternalServerErrHandler c
  | .content content =>
    (((c.Status 200).Header (listOf "Content-Type") (listOf "application/octet-stream")).Header
        (listOf "Content-Length") (natChars content.length)).Body content

/-- Outcome of `SaveFileHandler`: a response plus the stream position
after the consumed body, or the runtime panic from a negative
Content-Length. -/
inductive SaveOut where
  | out (w : Wire) (rest : List Char)
  | crash
deriving Repr, DecidableEq

/-- `SaveFileHandler` (src/app/main.go lines 131-149): read the request
body (500 if that fails), write it to the file (500 on failure), else
201 with empty body. -/
def SaveFileHandler (fs : FileStore) (c : ConnHandler) (dir filename : List Char)
    (s : List Char) : SaveOut :=
  match ReadRequestBody c.req.Headers s with
  | .err => .out (InternalServerErrHandler c) s
  | .panicked => .crash
  | .ok rawBody rest =>
    if fs.writeFile (dir ++ '/' :: filename) rawBody then .out ((c.Status 201).Body []) rest
    else .out (InternalServerErrHandler c) rest

/-- `shouldCloseConn` flag of the connection loop (src/app/main.go
lines 167-171). -/
def shouldCloseConn (c : ConnHandler) : Bool :=
  decide (hget c.req.Headers (listOf "Connection") = some (listOf "close"))

/-- The loop body adds a `Connection: close` response header when the
request declared it, before dispatching (src/app/main.go lines 166-171). -/
def applyCloseHeader (c : ConnHandler) : ConnHandler :=
  if shouldCloseConn c then ConnHandler.Header c (listOf "Connection") (listOf "close") else c

/-- Outcome of one pass through the dispatch part of the connection loop
(src/app/main.go lines 166-213): a response together with the remaining
stream and whether the loop then closes the connection (`close = true`
both for the `Connection: close` path and for the early `return`
statements of the files branch), or a process exit, or a runtime panic. -/
inductive StepOut where
  | respond (w : Wire) (rest : List Char) (close : Bool)
  | exits (code : Nat)
  | crash
deriving Repr, DecidableEq

/-- Dispatch part of `HandleConnection` (src/app/main.go lines 166-213).
`dir` is the result of `isDirExists(flags)` — empty when the directory
flag is unset or the directory does not exist (src/app/utils.go; the
os.Stat check is external).  Route order: exact "/", exact "/user-agent",
echo pattern, files pattern, default 404.  In the files branch an
unconfigured directory and an empty captured filename each respond and
then `return` from `HandleConnection`, closing the connection. -/
def handleRequest (compress : List Char → List Char) (fs : FileStore) (dir : List Char)
    (c0 : ConnHandler) (s : List Char) : StepOut :=
  let close := shouldCloseConn c0
  let c := applyCloseHeader c0
  if c.req.RequestTarget = listOf "/" then .respond (RootHandler c) s close
  else if c.req.RequestTarget = listOf "/user-agent" then
    match UserAgentHandler c with
    | .exits n => .exits n
    | .resp w => .respond w s close
  else if reMatch echoPat c.req.RequestTarget then .respond (EchoHandler compress c) s close
  else if reMatch filesPat c.req.RequestTarget then
    if dir = [] then .respond (InternalServerErrHandler c) s true
    else
      let filename := (reCapture filesPat c.req.RequestTarget).getD []
      if filename = [] then .respond (BadReqHandler c) s true
      else if c.req.HTTPMethod = listOf "GET" then
        .respond (GetFileHandler fs c dir filename) s close
      else
        match SaveFileHandler fs c dir filename s with
        | .out w rest => .respond w rest close
        | .crash => .crash
  else .respond (NotFoundHandler c) s close

/-- Result of `NewConnHandler` (src/app/connection.go lines 224-246).
After both parses succeed the function executes
`c.resp.Headers = make(map[string]string)`, but the `resp` pointer field
was never assigned and is nil, so this line panics with a nil-pointer
dereference: the `ok` outcome (the `return c, nil` statement) is
unreachable and `panicked` carries the request that had just been parsed. -/
inductive NCHRes where
  | ok (c : ConnHandler) (rest : List Char)
  | panicked (req : Request) (rest : List Char)
  | errEOF
  | errOther (rest : List Char)
deriving Repr, DecidableEq

/-- `NewConnHandler` (src/app/connection.go lines 224-246). -/
def NewConnHandler (s : List Char) : NCHRes :=
  match readReqLine s with
  | .errEOF => .errEOF
  | .errInvalid rest => .errOther rest
  | .ok req rest =>
    match readReqHeaders rest with
    | .errEOF => .errEOF
    | .errInvalid rest2 => .errOther rest2
    | .ok hs rest2 => .panicked { req with Headers := hs } rest2

/-- Whether `NewConnHandler` returned a usable handler. -/
def NCHRes.isOk : NCHRes → Bool
  | .ok .. => true
  | _ => false

/-- Overall outcome of `HandleConnection` on one connection, with the
list of responses written before the connection ended. -/
inductive LoopOut where
  | closedEOF (ws : List Wire)
  | crashedNilResp (ws : List Wire) (req : Request)
  | closedByHandler (ws : List Wire)
  | exitsProcess (ws : List Wire) (code : Nat)
  | crashedBody (ws : List Wire)
deriving Repr, DecidableEq

/-- Connection loop of `HandleConnection` (src/app/main.go lines 152-215),
fueled for structural recursion (`HandleConnection` supplies fuel larger
than the stream length, which suffices because every `continue` iteration
consumes at least one CRLF).  io.EOF from `NewConnHandler` returns (normal
close); any other handler-creation error prints and `continue`s, reading
the next request from the same stream; a successful creation would run
the dispatch body, but in this code it panics first (`crashedNilResp`). -/
def handleLoopAux (compress : List Char → List Char) (fs : FileStore) (dir : List Char) :
    Nat → List Char → List Wire → LoopOut
  | 0, _, ws => .closedEOF ws
  | fuel+1, s, ws =>
    match NewConnHandler s with
    | .errEOF => .closedEOF ws
    | .errOther rest => handleLoopAux compress fs dir fuel rest ws
    | .panicked req _ => .crashedNilResp ws req
    | .ok c rest =>
      match handleRequest compress fs dir c rest with
      | .exits n => .exitsProcess ws n
      | .crash => .crashedBody ws
      | .respond w rest2 close =>
        if close then .closedByHandler (ws ++ [w])
        else handleLoopAux compress fs dir fuel rest2 (ws ++ [w])

/-- `HandleConnection` (src/app/main.go lines 152-215) on a whole
connection stream. -/
def HandleConnection (compress : List Char → List Char) (fs : FileStore) (dir : List Char)
    (s : List Char) : LoopOut :=
  handleLoopAux compress fs dir (s.length + 1) s []

/-- Trivial concrete file store used to instantiate theorems at concrete
inputs. -/
def fsTriv : FileStore := ⟨fun _ => .notExist, fun _ _ => false⟩

/-! Helper lemmas about the byte-line reader. -/

/-- The CRLF check of `readUntilCRLF` fires exactly on lists ending in
CRLF. -/
theorem dropTwoEq_iff (xs : List Char) :
    xs.drop (xs.length - 2) = CRLF ↔ ∃ ys, xs = ys ++ CRLF := by
  constructor
  · intro h
    refine ⟨xs.take (xs.length - 2), ?_⟩
    conv_lhs => rw [← List.take_append_drop (xs.length - 2) xs]
    rw [h]
  · rintro ⟨ys, rfl⟩
    have hlen : (ys ++ CRLF).length - 2 = ys.length := by simp [CRLF]
    rw [hlen, List.drop_left]

/-- A list ending in a carriage return does not end in CRLF. -/
theorem dropTwo_r_ne (acc : List Char) :
    ¬ (acc ++ ['\r']).drop ((acc ++ ['\r']).length - 2) = CRLF := by
  intro h
  rcases (dropTwoEq_iff _).1 h with ⟨ys, hy⟩
  have h2 : acc ++ ['\r'] = (ys ++ ['\r']) ++ ['\n'] := by
    rw [hy]; simp [CRLF]
  have h3 := (List.append_inj' h2 rfl).2
  simp at h3

/-- `leadsWith` is the literal-prefix relation. -/
theorem leadsWith_iff (pat l : List Char) :
    leadsWith pat l = true ↔ ∃ t, l = pat ++ t := by
  induction pat generalizing l with
  | nil =>
    constructor
    · intro _; exact ⟨l, rfl⟩
    · intro _; rfl
  | cons p ps ih =>
    cases l with
    | nil => simp [leadsWith]
    | cons c cs =>
      simp only [leadsWith, Bool.and_eq_true, beq_iff_eq, ih, List.cons_append,
        List.cons.injEq]
      constructor
      · rintro ⟨rfl, t, rfl⟩; exact ⟨t, rfl, rfl⟩
      · rintro ⟨t, rfl, rfl⟩; exact ⟨rfl, t, rfl⟩

/-- When the literal is a prefix, `afterFirst` strips it off. -/
theorem afterFirst_of_leadsWith {pat l : List Char} (h : leadsWith pat l = true) :
    afterFirst pat l = some (l.drop pat.length) := by
  cases l with
  | nil =>
    cases pat with
    | nil => simp [afterFirst]
    | cons p ps => simp [leadsWith] at h
  | cons c cs => simp [afterFirst, h]

/-- `afterFirst` finds an occurrence wherever one exists. -/
theorem afterFirst_isSome_append (pat xs ys : List Char) :
    (afterFirst pat (xs ++ pat ++ ys)).isSome = true := by
  induction xs with
  | nil =>
    have h : leadsWith pat (pat ++ ys) = true := (leadsWith_iff pat _).2 ⟨ys, rfl⟩
    simp [afterFirst_of_leadsWith h]
  | cons x xs ih =>
    show (afterFirst pat (x :: (xs ++ pat ++ ys))).isSome = true
    rw [afterFirst]
    split
    · simp
    · exact ih

/-- Main lemma on the byte-line reader: when the pending line contains no
CRLF, the reader returns the text before the terminator and the stream
after it. -/
theorem readUntilCRLFAux_find {l : List Char} :
    ∀ acc rest, afterFirst CRLF (acc ++ l) = none →
    readUntilCRLFAux acc (l ++ CRLF ++ rest) = .line (acc ++ l) rest := by
  induction l with
  | nil =>
    intro acc rest _
    show readUntilCRLFAux acc ('\r' :: '\n' :: rest) = .line (acc ++ []) rest
    rw [readUntilCRLFAux]
    rw [if_neg (dropTwo_r_ne acc)]
    rw [readUntilCRLFAux]
    have hc : ((acc ++ ['\r']) ++ ['\n']).drop (((acc ++ ['\r']) ++ ['\n']).length - 2) = CRLF := by
      refine (dropTwoEq_iff _).2 ⟨acc, ?_⟩
      simp [CRLF]
    rw [if_pos hc]
    have hlen : ((acc ++ ['\r']) ++ ['\n']).length - 2 = acc.length := by simp
    have htake : ((acc ++ ['\r']) ++ ['\n']).take acc.length = acc := by
      rw [List.append_assoc]
      exact List.take_left acc _
    rw [hlen, htake]
    simp
  | cons c l ih =>
    intro acc rest h
    show readUntilCRLFAux acc (c :: (l ++ CRLF ++ rest)) = .line (acc ++ c :: l) rest
    rw [readUntilCRLFAux]
    rw [if_neg ?_]
    · have h' : afterFirst CRLF ((acc ++ [c]) ++ l) = none := by
        rw [List.append_assoc]
        simpa using h
      have := ih (acc ++ [c]) rest h'
      rw [this]
      simp
    · intro hd
      rcases (dropTwoEq_iff _).1 hd with ⟨ys, hy⟩
      have heq : acc ++ c :: l = ys ++ CRLF ++ l := by
        calc acc ++ c :: l = (acc ++ [c]) ++ l := by simp
        _ = (ys ++ CRLF) ++ l := by rw [hy]
      have hsome := afterFirst_isSome_append CRLF ys l
      rw [← heq] at hsome
      rw [h] at hsome
      simp at hsome

/-- Byte-line reader at end of stream with no CRLF: everything read so
far is returned with io.EOF. -/
theorem readUntilCRLFAux_eof {l : List Char} :
    ∀ acc, afterFirst CRLF (acc ++ l) = none →
    readUntilCRLFAux acc l = .eof (acc ++ l) := by
  induction l with
  | nil => intro acc _; simp [readUntilCRLFAux]
  | cons c l ih =>
    intro acc h
    rw [readUntilCRLFAux]
    rw [if_neg ?_]
    · have h' : afterFirst CRLF ((acc ++ [c]) ++ l) = none := by
        rw [List.append_assoc]
        simpa using h
      have := ih (acc ++ [c]) h'
      rw [this]
      simp
    · intro hd
      rcases (dropTwoEq_iff _).1 hd with ⟨ys, hy⟩
      have heq : acc ++ c :: l = ys ++ CRLF ++ l := by
        calc acc ++ c :: l = (acc ++ [c]) ++ l := by simp
        _ = (ys ++ CRLF) ++ l := by rw [hy]
      have hsome := afterFirst_isSome_append CRLF ys l
      rw [← heq] at hsome
      rw [h] at hsome
      simp at hsome

/-- `readUntilCRLF` on a line followed by CRLF and the rest. -/
theorem readUntilCRLF_line {l rest : List Char} (h : afterFirst CRLF l = none) :
    readUntilCRLF (l ++ CRLF ++ rest) = .line l rest := by
  have := readUntilCRLFAux_find [] rest (by simpa using h)
  simpa [readUntilCRLF] using this

/-- `readUntilCRLF` on a stream containing no CRLF at all. -/
theorem readUntilCRLF_eof {s : List Char} (h : afterFirst CRLF s = none) :
    readUntilCRLF s = .eof s := by
  have := readUntilCRLFAux_eof [] (by simpa using h)
  simpa [readUntilCRLF] using this

/-- Each produced line consumes at least the CRLF, so the remaining
stream is strictly shorter. -/
theorem readUntilCRLFAux_line_lt {s : List Char} :
    ∀ {acc l rest : List Char}, readUntilCRLFAux acc s = .line l rest → rest.length < s.length := by
  induction s with
  | nil => intro acc l rest h; simp [readUntilCRLFAux] at h
  | cons b t ih =>
    intro acc l rest h
    rw [readUntilCRLFAux] at h
    split at h
    · cases h
      simp
    · exact Nat.lt_trans (ih h) (Nat.lt_succ_self _)

/-- Stream-length bound for `readUntilCRLF`. -/
theorem readUntilCRLF_line_lt {s l rest : List Char} (h : readUntilCRLF s = .line l rest) :
    rest.length < s.length :=
  readUntilCRLFAux_line_lt h

/-! Helper lemmas about Go-style split and join. -/

/-- `headD` is `getD 0`. -/
theorem headD_eq_getD (l : List (List Char)) (d : List Char) : l.headD d = l.getD 0 d := by
  cases l <;> rfl

/-- Splitting always yields at least one part. -/
theorem splitOnChar_ne_nil (sep : Char) (l : List Char) : splitOnChar sep l ≠ [] := by
  cases l with
  | nil => simp [splitOnChar]
  | cons c t =>
    rw [splitOnChar]
    split <;> simp

/-- The first split part is the text before the first separator. -/
theorem splitOnChar_head (sep : Char) (l : List Char) :
    (splitOnChar sep l).getD 0 [] = l.takeWhile (fun c => c != sep) := by
  induction l with
  | nil => rfl
  | cons c t ih =>
    rw [splitOnChar]
    by_cases h : c = sep
    · subst h
      simp [List.takeWhile_cons]
    · simp only [if_neg h, List.takeWhile_cons, bne_iff_ne, ne_eq, h, not_false_eq_true,
        if_pos, List.getD_cons_zero]
      rw [headD_eq_getD, ih]
      simp [h]

/-- Adding a head character to the first part commutes with joining. -/
theorem joinSep_cons_head (sep c : Char) (x : List Char) (r : List (List Char)) :
    joinSep sep ((c :: x) :: r) = c :: joinSep sep (x :: r) := by
  cases r <;> rfl

/-- Join is a left inverse of split. -/
theorem joinSep_splitOnChar (sep : Char) (l : List Char) :
    joinSep sep (splitOnChar sep l) = l := by
  induction l with
  | nil => rfl
  | cons c t ih =>
    rcases hr : splitOnChar sep t with _ | ⟨t0, ts⟩
    · exact absurd hr (splitOnChar_ne_nil sep t)
    · simp only [splitOnChar, hr]
      rw [hr] at ih
      by_cases h : c = sep
      · rw [if_pos h]
        have e1 : joinSep sep ([] :: t0 :: ts) = [] ++ sep :: joinSep sep (t0 :: ts) := rfl
        rw [e1, ih, List.nil_append, h]
      · rw [if_neg h]
        simp only [List.headD_cons, List.tail_cons]
        rw [joinSep_cons_head, ih]

/-- Joining all parts after the first recovers the text after the first
separator. -/
theorem joinSep_splitOnChar_tail (sep : Char) (l : List Char) :
    joinSep sep ((splitOnChar sep l).drop 1) = (l.dropWhile (fun c => c != sep)).drop 1 := by
  induction l with
  | nil => rfl
  | cons c t ih =>
    rcases hr : splitOnChar sep t with _ | ⟨t0, ts⟩
    · exact absurd hr (splitOnChar_ne_nil sep t)
    · simp only [splitOnChar, hr]
      by_cases h : c = sep
      · rw [if_pos h]
        have e2 := joinSep_splitOnChar sep t
        rw [hr] at e2
        simp only [List.drop_succ_cons, List.drop_zero]
        rw [e2, List.dropWhile_cons]
        simp [h]
      · rw [if_neg h]
        simp only [List.tail_cons, List.drop_succ_cons, List.drop_zero]
        rw [hr] at ih
        simp only [List.drop_succ_cons, List.drop_zero] at ih
        rw [ih, List.dropWhile_cons]
        simp [h]

/-- The number of split parts is the separator count plus one. -/
theorem splitOnChar_length (sep : Char) (l : List Char) :
    (splitOnChar sep l).length = l.count sep + 1 := by
  induction l with
  | nil => simp [splitOnChar]
  | cons c t ih =>
    rcases hr : splitOnChar sep t with _ | ⟨t0, ts⟩
    · exact absurd hr (splitOnChar_ne_nil sep t)
    · simp only [splitOnChar, hr]
      rw [hr] at ih
      by_cases h : c = sep
      · rw [if_pos h, h]
        simp only [List.length_cons, List.count_cons_self]
        simp only [List.length_cons] at ih
        omega
      · rw [if_neg h]
        simp only [List.length_cons, List.tail_cons]
        rw [List.count_cons_of_ne (fun hc => h hc.symm)]
        simp only [List.length_cons] at ih
        omega

/-- Fewer than two split parts means the separator does not occur. -/
theorem splitOnChar_length_lt_two (sep : Char) (l : List Char) :
    (splitOnChar sep l).length < 2 ↔ sep ∉ l := by
  rw [splitOnChar_length]
  constructor
  · intro h hm
    have := List.count_pos_iff.2 hm
    omega
  · intro h
    have := List.count_eq_zero.2 h
    omega

/-! Step lemmas for the request-line and header parsers. -/

/-- `readReqLine` on a well-formed line followed by the rest of the
stream. -/
theorem readReqLine_step {line rest : List Char} (h : afterFirst CRLF line = none) :
    readReqLine (line ++ CRLF ++ rest) =
      (if (splitOnChar ' ' line).length = 3 then
        .ok ⟨(splitOnChar ' ' line).getD 0 [], (splitOnChar ' ' line).getD 1 [],
          (splitOnChar ' ' line).getD 2 [], []⟩ rest
      else .errInvalid rest) := by
  rw [readReqLine, readUntilCRLF_line h]

/-- `readReqLine` when the stream contains no CRLF at all: io.EOF. -/
theorem readReqLine_eof {s : List Char} (h : afterFirst CRLF s = none) :
    readReqLine s = .errEOF := by
  rw [readReqLine, readUntilCRLF_eof h]

/-- A non-EOF request-line error consumed the whole malformed line. -/
theorem readReqLine_errInvalid_lt {s rest : List Char}
    (h : readReqLine s = .errInvalid rest) : rest.length < s.length := by
  rw [readReqLine] at h
  rcases hU : readUntilCRLF s with ⟨l, r⟩ | sofar <;> rw [hU] at h
  · dsimp only at h
    split at h
    · cases h
    · cases h
      exact readUntilCRLF_line_lt hU
  · cases h

/-- A parsed request line consumed the whole line. -/
theorem readReqLine_ok_lt {s rest : List Char} {req : Request}
    (h : readReqLine s = .ok req rest) : rest.length < s.length := by
  rw [readReqLine] at h
  rcases hU : readUntilCRLF s with ⟨l, r⟩ | sofar <;> rw [hU] at h
  · dsimp only at h
    split at h
    · cases h
      exact readUntilCRLF_line_lt hU
    · cases h
  · cases h

/-- The header-parse fuel is irrelevant as long as it exceeds the stream
length. -/
theorem readReqHeadersAux_congr :
    ∀ (fuel fuel' : Nat) (m : HMap) (s : List Char), s.length < fuel → s.length < fuel' →
    readReqHeadersAux fuel m s = readReqHeadersAux fuel' m s := by
  intro fuel
  induction fuel with
  | zero => intro fuel' m s h _; omega
  | succ fuel ih =>
    intro fuel' m s h h'
    cases fuel' with
    | zero => omega
    | succ fuel' =>
      rw [readReqHeadersAux, readReqHeadersAux]
      rcases hU : readUntilCRLF s with ⟨l, rest⟩ | sofar
      · have hlt := readUntilCRLF_line_lt hU
        dsimp only
        split
        · rfl
        · split
          · rfl
          · exact ih fuel' _ rest (by omega) (by omega)
      · rfl

/-- A non-EOF header error leaves the stream right after the offending
line. -/
theorem readReqHeadersAux_errInvalid_lt :
    ∀ (fuel : Nat) (m : HMap) (s rest : List Char),
    readReqHeadersAux fuel m s = .errInvalid rest → rest.length < s.length := by
  intro fuel
  induction fuel with
  | zero => intro m s rest h; cases h
  | succ fuel ih =>
    intro m s rest h
    rw [readReqHeadersAux] at h
    rcases hU : readUntilCRLF s with ⟨l, r⟩ | sofar <;> rw [hU] at h
    · have hlt := readUntilCRLF_line_lt hU
      dsimp only at h
      split at h
      · cases h
      · split at h
        · cases h; omega
        · exact Nat.lt_trans (ih _ _ _ h) hlt
    · cases h

/-- A finished header block leaves the stream after the empty line. -/
theorem readReqHeadersAux_ok_lt :
    ∀ (fuel : Nat) (m m' : HMap) (s rest : List Char),
    readReqHeadersAux fuel m s = .ok m' rest → rest.length < s.length := by
  intro fuel
  induction fuel with
  | zero => intro m m' s rest h; cases h
  | succ fuel ih =>
    intro m m' s rest h
    rw [readReqHeadersAux] at h
    rcases hU : readUntilCRLF s with ⟨l, r⟩ | sofar <;> rw [hU] at h
    · have hlt := readUntilCRLF_line_lt hU
      dsimp only at h
      split at h
      · cases h; omega
      · split at h
        · cases h
        · exact Nat.lt_trans (ih _ _ _ _ h) hlt
    · cases h

/-- One parsed header line: the map gains the trimmed name/value pair and
parsing continues on the rest of the stream. -/
theorem readReqHeadersFrom_step {l : List Char} (m : HMap) (rest : List Char)
    (h : afterFirst CRLF l = none) (hl : l ≠ []) (hc : ':' ∈ l) :
    readReqHeadersFrom m (l ++ CRLF ++ rest) =
      readReqHeadersFrom
        (hset m (goTrim ((splitOnChar ':' l).getD 0 []))
          (goTrim (joinSep ':' ((splitOnChar ':' l).drop 1)))) rest := by
  rw [readReqHeadersFrom, readReqHeadersAux, readUntilCRLF_line h]
  dsimp only
  rw [if_neg hl]
  rw [if_neg (by rw [splitOnChar_length_lt_two]; exact fun hn => hn hc)]
  apply readReqHeadersAux_congr
  · simp [CRLF]
    omega
  · omega

/-- The empty line terminates the header block normally. -/
theorem readReqHeadersFrom_empty (m : HMap) (rest : List Char) :
    readReqHeadersFrom m (CRLF ++ rest) = .ok m rest := by
  have h0 : afterFirst CRLF ([] : List Char) = none := by decide
  have := @readUntilCRLF_line [] rest h0
  rw [readReqHeadersFrom, readReqHeadersAux]
  rw [List.nil_append] at this
  rw [this]
  rfl

/-- A non-empty header line without a colon is the "invalid header"
error. -/
theorem readReqHeadersFrom_nocolon {l : List Char} (m : HMap) (rest : List Char)
    (h : afterFirst CRLF l = none) (hl : l ≠ []) (hc : ':' ∉ l) :
    readReqHeadersFrom m (l ++ CRLF ++ rest) = .errInvalid rest := by
  rw [readReqHeadersFrom, readReqHeadersAux, readUntilCRLF_line h]
  dsimp only
  rw [if_neg hl]
  rw [if_pos ((splitOnChar_length_lt_two ':' l).2 hc)]

/-- End of stream before the empty-line terminator is io.EOF. -/
theorem readReqHeadersFrom_eof {s : List Char} (m : HMap)
    (h : afterFirst CRLF s = none) :
    readReqHeadersFrom m s = .errEOF := by
  rw [readReqHeadersFrom, readReqHeadersAux, readUntilCRLF_eof h]

/-! Lemmas about handler creation and the connection loop. -/

/-- `NewConnHandler` can never return the `ok` outcome: on any stream
where both parses succeed, the nil `resp` pointer is dereferenced first. -/
theorem NewConnHandler_never_ok (s : List Char) : (NewConnHandler s).isOk = false := by
  rw [NewConnHandler]
  rcases h1 : readReqLine s with ⟨req, rest⟩ | _ | rest
  · dsimp only
    rcases h2 : readReqHeaders rest with ⟨m, r2⟩ | _ | r2 <;> rfl
  · rfl
  · rfl

/-- A `continue` iteration of the connection loop strictly shrinks the
stream. -/
theorem NewConnHandler_errOther_lt {s rest : List Char}
    (h : NewConnHandler s = .errOther rest) : rest.length < s.length := by
  rw [NewConnHandler] at h
  rcases h1 : readReqLine s with ⟨req, r⟩ | _ | r <;> rw [h1] at h <;> dsimp only at h
  · rcases h2 : readReqHeaders r with ⟨m, r2⟩ | _ | r2 <;> rw [h2] at h <;> dsimp only at h
    · exact NCHRes.noConfusion h
    · exact NCHRes.noConfusion h
    · cases h
      rw [readReqHeaders, readReqHeadersFrom] at h2
      exact Nat.lt_trans (readReqHeadersAux_errInvalid_lt _ _ _ _ h2) (readReqLine_ok_lt h1)
  · exact NCHRes.noConfusion h
  · cases h
    exact readReqLine_errInvalid_lt h1

/-- The connection-loop fuel is irrelevant as long as it exceeds the
stream length. -/
theorem handleLoopAux_congr (cp : List Char → List Char) (fs : FileStore) (dir : List Char) :
    ∀ (fuel fuel' : Nat) (s : List Char) (ws : List Wire), s.length < fuel → s.length < fuel' →
    handleLoopAux cp fs dir fuel s ws = handleLoopAux cp fs dir fuel' s ws := by
  intro fuel
  induction fuel with
  | zero => intro fuel' s ws h _; omega
  | succ fuel ih =>
    intro fuel' s ws h h'
    cases fuel' with
    | zero => omega
    | succ fuel' =>
      rw [handleLoopAux, handleLoopAux]
      rcases hN : NewConnHandler s with ⟨c, rest⟩ | ⟨req, rest⟩ | _ | rest
      · have hok := NewConnHandler_never_ok s
        rw [hN] at hok
        simp [NCHRes.isOk] at hok
      · rfl
      · rfl
      · have hlt := NewConnHandler_errOther_lt hN
        exact ih fuel' rest ws (by omega) (by omega)

/-- A malformed request line (wrong token count) is the non-EOF error,
with the stream advanced past the consumed line. -/
theorem NewConnHandler_badline {line rest : List Char} (h : afterFirst CRLF line = none)
    (h3 : (splitOnChar ' ' line).length ≠ 3) :
    NewConnHandler (line ++ CRLF ++ rest) = .errOther rest := by
  rw [NewConnHandler, readReqLine_step h, if_neg h3]

/-- End of stream before any CRLF is io.EOF from handler creation. -/
theorem NewConnHandler_eof {s : List Char} (h : afterFirst CRLF s = none) :
    NewConnHandler s = .errEOF := by
  rw [NewConnHandler, readReqLine_eof h]

/-- A header line without a colon after a well-formed request line is the
non-EOF "invalid header" error, with the stream advanced past both
lines. -/
theorem NewConnHandler_badheader {rl hl rest : List Char}
    (h1 : afterFirst CRLF rl = none) (h3 : (splitOnChar ' ' rl).length = 3)
    (h2 : afterFirst CRLF hl = none) (hne : hl ≠ []) (hnc : ':' ∉ hl) :
    NewConnHandler (rl ++ CRLF ++ (hl ++ CRLF ++ rest)) = .errOther rest := by
  rw [NewConnHandler, readReqLine_step h1, if_pos h3]
  dsimp only
  rw [readReqHeaders, readReqHeadersFrom_nocolon [] rest h2 hne hnc]

/-- End of stream in the middle of the header block is io.EOF from
handler creation. -/
theorem NewConnHandler_eofheader {rl t : List Char}
    (h1 : afterFirst CRLF rl = none) (h3 : (splitOnChar ' ' rl).length = 3)
    (h2 : afterFirst CRLF t = none) :
    NewConnHandler (rl ++ CRLF ++ t) = .errEOF := by
  rw [NewConnHandler, readReqLine_step h1, if_pos h3]
  dsimp only
  rw [readReqHeaders, readReqHeadersFrom_eof [] h2]

/-- A non-EOF handler-creation error makes the loop `continue` on the
remaining stream. -/
theorem HandleConnection_continue {cp : List Char → List Char} {fs : FileStore}
    {dir : List Char} {s rest : List Char} (h : NewConnHandler s = .errOther rest) :
    HandleConnection cp fs dir s = HandleConnection cp fs dir rest := by
  rw [HandleConnection, HandleConnection, handleLoopAux, h]
  exact handleLoopAux_congr cp fs dir _ _ rest []
    (by have := NewConnHandler_errOther_lt h; omega) (by omega)

/-- io.EOF from handler creation closes the connection with no responses
written. -/
theorem HandleConnection_eofclose {cp : List Char → List Char} {fs : FileStore}
    {dir : List Char} {s : List Char} (h : NewConnHandler s = .errEOF) :
    HandleConnection cp fs dir s = .closedEOF [] := by
  rw [HandleConnection, handleLoopAux, h]

/-- A successful route capture implies the route pattern matches. -/
theorem reMatch_of_reCapture {pat s v : List Char} (h : reCapture pat s = some v) :
    reMatch pat s = true := by
  rw [reCapture] at h
  rcases hA : afterFirst pat s with _ | u
  · rw [hA] at h
    simp at h
  · rw [reMatch, hA]
    rfl

/-- Adding the `Connection: close` response header does not change the
request. -/
theorem applyCloseHeader_req (c : ConnHandler) : (applyCloseHeader c).req = c.req := by
  rw [applyCloseHeader]
  split <;> rfl

/-! Claim theorems. -/

/-- C1: on every connection whose request line and headers parse
successfully, `NewConnHandler` is expected to return a handler with an
initialized response-header map; in this code the assignment
`c.resp.Headers = make(map[string]string)` dereferences the never-assigned
nil `resp` pointer, so `NewConnHandler` never reaches its `return c, nil`
statement (first conjunct: no stream yields the `ok` outcome), and a
minimal well-formed request drives it into the nil-dereference panic
(second conjunct). -/
theorem claim_C1_nil_resp_dereference :
    (∀ s : List Char, (NewConnHandler s).isOk = false) ∧
    NewConnHandler (listOf "GET / HTTP/1.1\r\n\r\n") =
      .panicked ⟨listOf "GET", listOf "/", listOf "HTTP/1.1", []⟩ [] :=
  ⟨NewConnHandler_never_ok, by decide⟩

/-- C2: the claim says each request gets a response, `Connection: close`
is echoed and ends the connection, and two sequential requests without it
each get their own response; the code instead panics inside
`NewConnHandler` (nil `resp` pointer) before the persistence logic can
run, so a connection carrying two plain requests crashes on the first
with zero responses written, and a request declaring `Connection: close`
also crashes with zero responses. -/
theorem claim_C2_persistence_code :
    HandleConnection id fsTriv [] (listOf "GET /a HTTP/1.1\r\n\r\nGET /b HTTP/1.1\r\n\r\n") =
      .crashedNilResp [] ⟨listOf "GET", listOf "/a", listOf "HTTP/1.1", []⟩ ∧
    HandleConnection id fsTriv [] (listOf "GET / HTTP/1.1\r\nConnection: close\r\n\r\n") =
      .crashedNilResp [] ⟨listOf "GET", listOf "/",
        listOf "HTTP/1.1", [(listOf "Connection", listOf "close")]⟩ :=
  ⟨by decide, by decide⟩

/-- C3 counterexample: after the malformed request line "BAD" the loop
does not close the connection; it continues, reads the next request from
the same stream, and (because of the C1 panic) crashes while parsing it —
reaching `crashedNilResp` with the second request is only possible by
reading past the framing error, and the outcome differs from the
immediate close the claim requires. -/
theorem claim_C3_counterexample :
    HandleConnection id fsTriv [] (listOf "BAD\r\nGET /nope HTTP/1.1\r\n\r\n") =
      .crashedNilResp [] ⟨listOf "GET", listOf "/nope", listOf "HTTP/1.1", []⟩ ∧
    decide (HandleConnection id fsTriv [] (listOf "BAD\r\nGET /nope HTTP/1.1\r\n\r\n") =
      .closedEOF []) = false :=
  ⟨by decide, by decide⟩

/-- C3 amended: only the end-of-stream framing errors are
connection-fatal.  (1) a request line with a token count other than 3 is
discarded and the loop continues with the remaining stream as fresh
requests; (2) a header line without a colon likewise; (3) end of stream
before any CRLF closes the connection with no response; (4) end of
stream mid-headers closes the connection with no response. -/
theorem claim_C3_framing_amended (cp : List Char → List Char) (fs : FileStore)
    (dir : List Char) :
    (∀ line rest : List Char, afterFirst CRLF line = none →
      (splitOnChar ' ' line).length ≠ 3 →
      HandleConnection cp fs dir (line ++ CRLF ++ rest) = HandleConnection cp fs dir rest) ∧
    (∀ rl hl rest : List Char, afterFirst CRLF rl = none →
      (splitOnChar ' ' rl).length = 3 → afterFirst CRLF hl = none → hl ≠ [] → ':' ∉ hl →
      HandleConnection cp fs dir (rl ++ CRLF ++ (hl ++ CRLF ++ rest)) =
        HandleConnection cp fs dir rest) ∧
    (∀ s : List Char, afterFirst CRLF s = none →
      HandleConnection cp fs dir s = .closedEOF []) ∧
    (∀ rl t : List Char, afterFirst CRLF rl = none → (splitOnChar ' ' rl).length = 3 →
      afterFirst CRLF t = none →
      HandleConnection cp fs dir (rl ++ CRLF ++ t) = .closedEOF []) := by
  refine ⟨?_, ?_, ?_, ?_⟩
  · intro line rest h h3
    exact HandleConnection_continue (NewConnHandler_badline h h3)
  · intro rl hl rest h1 h3 h2 hne hnc
    exact HandleConnection_continue (NewConnHandler_badheader h1 h3 h2 hne hnc)
  · intro s h
    exact HandleConnection_eofclose (NewConnHandler_eof h)
  · intro rl t h1 h3 h2
    exact HandleConnection_eofclose (NewConnHandler_eofheader h1 h3 h2)

/-- Witness for the amended C3 at a concrete stream: the bad line "BAD"
is skipped and processing continues with the following request. -/
theorem claim_C3_framing_amended_witness :
    HandleConnection id fsTriv [] (listOf "BAD" ++ CRLF ++ listOf "GET /nope HTTP/1.1\r\n\r\n") =
      HandleConnection id fsTriv [] (listOf "GET /nope HTTP/1.1\r\n\r\n") :=
  (claim_C3_framing_amended id fsTriv []).1 (listOf "BAD")
    (listOf "GET /nope HTTP/1.1\r\n\r\n") (by decide) (by decide)

/-- C8: for every CRLF-terminated request line, splitting on single
spaces into exactly 3 tokens yields exactly those tokens as method,
target and version with nothing else validated; any other token count is
the parse error; the third conjunct records that the tokens reassemble
the exact original line. -/
theorem claim_C8_request_line (line rest : List Char) (h : afterFirst CRLF line = none) :
    ((splitOnChar ' ' line).length = 3 →
      readReqLine (line ++ CRLF ++ rest) =
        .ok ⟨(splitOnChar ' ' line).getD 0 [], (splitOnChar ' ' line).getD 1 [],
          (splitOnChar ' ' line).getD 2 [], []⟩ rest) ∧
    ((splitOnChar ' ' line).length ≠ 3 →
      readReqLine (line ++ CRLF ++ rest) = .errInvalid rest) ∧
    joinSep ' ' (splitOnChar ' ' line) = line := by
  refine ⟨?_, ?_, joinSep_splitOnChar ' ' line⟩
  · intro h3
    rw [readReqLine_step h, if_pos h3]
  · intro h3
    rw [readReqLine_step h, if_neg h3]

/-- Witness for C8 at the request line "GET /idx HTTP/1.1". -/
theorem claim_C8_request_line_witness :
    readReqLine (listOf "GET /idx HTTP/1.1" ++ CRLF ++ listOf "") =
      .ok ⟨(splitOnChar ' ' (listOf "GET /idx HTTP/1.1")).getD 0 [],
        (splitOnChar ' ' (listOf "GET /idx HTTP/1.1")).getD 1 [],
        (splitOnChar ' ' (listOf "GET /idx HTTP/1.1")).getD 2 [], []⟩ (listOf "") :=
  (claim_C8_request_line (listOf "GET /idx HTTP/1.1") (listOf "") (by decide)).1 (by decide)

/-- C9: per header line — the empty line ends the block normally; a
non-empty line without a colon is a parse error; a line with a colon is
split at the first colon, name and value are trimmed, and everything
after the first colon (colons included) becomes the value. -/
theorem claim_C9_header_parse (m : HMap) (l rest : List Char)
    (h : afterFirst CRLF l = none) :
    (l = [] → readReqHeadersFrom m (l ++ CRLF ++ rest) = .ok m rest) ∧
    (l ≠ [] → ':' ∉ l → readReqHeadersFrom m (l ++ CRLF ++ rest) = .errInvalid rest) ∧
    (':' ∈ l →
      readReqHeadersFrom m (l ++ CRLF ++ rest) =
        readReqHeadersFrom
          (hset m (goTrim (l.takeWhile (fun c => c != ':')))
            (goTrim ((l.dropWhile (fun c => c != ':')).drop 1))) rest) := by
  refine ⟨?_, ?_, ?_⟩
  · rintro rfl
    simpa using readReqHeadersFrom_empty m rest
  · intro hl hc
    exact readReqHeadersFrom_nocolon m rest h hl hc
  · intro hc
    have hl : l ≠ [] := by rintro rfl; simp at hc
    rw [readReqHeadersFrom_step m rest h hl hc, splitOnChar_head, joinSep_splitOnChar_tail]

/-- Witness for C9 at the header line "Host: x:1" (value keeps its inner
colon). -/
theorem claim_C9_header_parse_witness :
    readReqHeadersFrom [] (listOf "Host: x:1" ++ CRLF ++ (CRLF ++ [])) =
      readReqHeadersFrom
        (hset [] (goTrim ((listOf "Host: x:1").takeWhile (fun c => c != ':')))
          (goTrim (((listOf "Host: x:1").dropWhile (fun c => c != ':')).drop 1)))
        (CRLF ++ []) :=
  (claim_C9_header_parse [] (listOf "Host: x:1") (CRLF ++ []) (by decide)).2.2 (by decide)

/-- C6 counterexample: with Content-Length 5 and only two bytes "ab" on
the stream before a clean end of stream, `ReadRequestBody` does not
return the two bytes that were read; it returns the whole five-byte
buffer, the read bytes padded with three zero bytes. -/
theorem claim_C6_counterexample :
    ReadRequestBody [(listOf "Content-Length", listOf "5")] (listOf "ab") =
      .ok (listOf "ab" ++ List.replicate 3 '\x00') [] ∧
    decide ((listOf "ab" ++ List.replicate 3 '\x00') = listOf "ab") = false :=
  ⟨by decide, by decide⟩

/-- C6 amended: a missing Content-Length is an explicit error; a
Content-Length that Atoi rejects (not a signed digit string, or out of
the 64-bit int range) is likewise an error; and for a header parseable
as non-negative n the function performs one transport read of at most n
bytes and returns a buffer of exactly n bytes — the available stream
bytes followed by zero bytes for any shortfall — with the stream
advanced past at most n bytes. -/
theorem claim_C6_body_read_amended (hs : HMap) (s : List Char) :
    (hget hs (listOf "Content-Length") = none → ReadRequestBody hs s = .err) ∧
    (∀ cl : List Char, hget hs (listOf "Content-Length") = some cl →
      goAtoi cl = none → ReadRequestBody hs s = .err) ∧
    (∀ (cl : List Char) (n : Nat), hget hs (listOf "Content-Length") = some cl →
      goAtoi cl = some (Int.ofNat n) →
      ReadRequestBody hs s =
        .ok (s.take n ++ List.replicate (n - s.length) '\x00') (s.drop n)) := by
  refine ⟨?_, ?_, ?_⟩
  · intro h
    rw [ReadRequestBody, h]
  · intro cl h1 h2
    rw [ReadRequestBody, h1]
    dsimp only
    rw [h2]
  · intro cl n h1 h2
    rw [ReadRequestBody, h1]
    dsimp only
    rw [h2]
    dsimp only
    have h0 : ¬ Int.ofNat n < 0 := not_lt.2 (Int.ofNat_nonneg n)
    rw [if_neg h0]
    simp

/-- Witness for the amended C6: Content-Length 2 against a three-byte
stream reads exactly two bytes, and a 20-digit Content-Length is the
Atoi range error. -/
theorem claim_C6_body_read_amended_witness :
    ReadRequestBody [(listOf "Content-Length", listOf "2")] (listOf "abc") =
      .ok ((listOf "abc").take 2 ++ List.replicate (2 - (listOf "abc").length) '\x00')
        ((listOf "abc").drop 2) ∧
    ReadRequestBody [(listOf "Content-Length", listOf "99999999999999999999")]
      (listOf "abc") = .err :=
  ⟨(claim_C6_body_read_amended [(listOf "Content-Length", listOf "2")] (listOf "abc")).2.2
    (listOf "2") 2 (by decide) (by decide),
   (claim_C6_body_read_amended [(listOf "Content-Length", listOf "99999999999999999999")]
     (listOf "abc")).2.1 (listOf "99999999999999999999") (by decide) (by decide)⟩

/-- C4: with the User-Agent header present, the handler responds 200
text/plain with the header value as body; with the header absent, the
claim requires a 400-class response, but the code calls `os.Exit(1)`,
terminating the whole process (first conjunct). -/
theorem claim_C4_user_agent (c : ConnHandler) :
    (hget c.req.Headers (listOf "User-Agent") = none → UserAgentHandler c = .exits 1) ∧
    (∀ v : List Char, hget c.req.Headers (listOf "User-Agent") = some v →
      UserAgentHandler c =
        .resp ⟨200, listOf "OK",
          hset (hset c.resp.Headers (listOf "Content-Type") (listOf "text/plain"))
            (listOf "Content-Length") (natChars v.length), v⟩) := by
  constructor
  · intro h
    rw [UserAgentHandler, h]
  · intro v h
    rw [UserAgentHandler, h]
    rfl

/-- Witness for C4: a /user-agent request with no User-Agent header makes
the process exit. -/
theorem claim_C4_user_agent_witness :
    UserAgentHandler ⟨⟨listOf "GET", listOf "/user-agent", listOf "HTTP/1.1", []⟩,
      ⟨0, [], []⟩⟩ = .exits 1 :=
  (claim_C4_user_agent ⟨⟨listOf "GET", listOf "/user-agent", listOf "HTTP/1.1", []⟩,
    ⟨0, [], []⟩⟩).1 (by decide)

/-- C5: for an echo request with captured value v, the response is
compressed exactly when `shouldCompress` holds (third conjunct: that is,
exactly when Accept-Encoding is present with a comma-separated token that
trims to "gzip"); when compressed, the response carries
Content-Encoding: gzip, Content-Length is the length of the compressed
bytes, the body is the compressed bytes and decompressing it restores v;
when not compressed, the body is v with Content-Length the length of v
and no Content-Encoding header is added. -/
theorem claim_C5_echo (compress decompress : List Char → List Char)
    (hrt : ∀ b : List Char, decompress (compress b) = b)
    (c : ConnHandler) (v : List Char)
    (hcap : reCapture echoPat c.req.RequestTarget = some v) :
    (shouldCompress c.req.Headers = true →
      EchoHandler compress c =
        ⟨200, listOf "OK",
          hset (hset (hset c.resp.Headers (listOf "Content-Type") (listOf "text/plain"))
            (listOf "Content-Encoding") (listOf "gzip"))
            (listOf "Content-Length") (natChars (compress v).length), compress v⟩ ∧
      decompress (compress v) = v) ∧
    (shouldCompress c.req.Headers = false →
      EchoHandler compress c =
        ⟨200, listOf "OK",
          hset (hset c.resp.Headers (listOf "Content-Type") (listOf "text/plain"))
            (listOf "Content-Length") (natChars v.length), v⟩) ∧
    (shouldCompress c.req.Headers = true ↔
      ∃ ae : List Char, hget c.req.Headers (listOf "Accept-Encoding") = some ae ∧
        ∃ tok ∈ splitOnChar ',' ae, goTrim tok = listOf "gzip") := by
  refine ⟨?_, ?_, ?_⟩
  · intro hsc
    refine ⟨?_, hrt v⟩
    simp only [EchoHandler, hcap, Option.getD_some, if_pos hsc]
    rfl
  · intro hsc
    simp only [EchoHandler, hcap, Option.getD_some,
      if_neg (by simp [hsc] : ¬ shouldCompress c.req.Headers = true)]
    rfl
  · rw [shouldCompress]
    rcases hae : hget c.req.Headers (listOf "Accept-Encoding") with _ | ae
    · simp
    · dsimp only
      simp only [List.any_eq_true, decide_eq_true_eq, Option.some.injEq]
      constructor
      · rintro ⟨tok, htok, hg⟩
        exact ⟨ae, rfl, tok, htok, hg⟩
      · rintro ⟨ae2, rfl, tok, htok, hg⟩
        exact ⟨tok, htok, hg⟩

/-- Witness for C5: GET /echo/hello with Accept-Encoding "deflate, gzip"
takes the compressed branch (instantiated with the identity codec). -/
theorem claim_C5_echo_witness :
    (EchoHandler id ⟨⟨listOf "GET", listOf "/echo/hello", listOf "HTTP/1.1",
        [(listOf "Accept-Encoding", listOf "deflate, gzip")]⟩, ⟨0, [], []⟩⟩ =
      ⟨200, listOf "OK",
        hset (hset (hset [] (listOf "Content-Type") (listOf "text/plain"))
          (listOf "Content-Encoding") (listOf "gzip"))
          (listOf "Content-Length") (natChars (id (listOf "hello")).length),
        id (listOf "hello")⟩ ∧
      id (id (listOf "hello")) = listOf "hello") :=
  (claim_C5_echo id id (fun _ => rfl)
    ⟨⟨listOf "GET", listOf "/echo/hello", listOf "HTTP/1.1",
      [(listOf "Accept-Encoding", listOf "deflate, gzip")]⟩, ⟨0, [], []⟩⟩
    (listOf "hello") (by decide)).1 (by decide)

/-- C7 counterexample: GET /files/ (empty captured name) with the serving
directory configured responds 400 but then returns from
`HandleConnection`, closing the connection even though the request did
not declare `Connection: close`; the outcome the claim requires (same
response, connection kept open) is refuted by the second conjunct. -/
theorem claim_C7_counterexample :
    handleRequest id fsTriv (listOf "d")
      ⟨⟨listOf "GET", listOf "/files/", listOf "HTTP/1.1", []⟩, ⟨0, [], []⟩⟩ [] =
      .respond ⟨400, listOf "Bad Request", [], []⟩ [] true ∧
    decide (handleRequest id fsTriv (listOf "d")
      ⟨⟨listOf "GET", listOf "/files/", listOf "HTTP/1.1", []⟩, ⟨0, [], []⟩⟩ [] =
      .respond ⟨400, listOf "Bad Request", [], []⟩ [] false) = false :=
  ⟨by decide, by decide⟩

/-- C7 amended: an empty captured filename with the directory configured
responds 400 (not 404/500) but then closes the connection regardless of
`Connection: close`; with the directory unconfigured or missing the
response is 500, likewise followed by the close. -/
theorem claim_C7_files_amended (cp : List Char → List Char) (fs : FileStore)
    (dir : List Char) (c : ConnHandler) (s : List Char)
    (hroot : c.req.RequestTarget ≠ listOf "/")
    (hua : c.req.RequestTarget ≠ listOf "/user-agent")
    (hecho : reMatch echoPat c.req.RequestTarget = false)
    (hcap : reCapture filesPat c.req.RequestTarget = some []) :
    (dir ≠ [] →
      handleRequest cp fs dir c s = .respond (BadReqHandler (applyCloseHeader c)) s true ∧
      (BadReqHandler (applyCloseHeader c)).StatusCode = 400) ∧
    (dir = [] →
      handleRequest cp fs dir c s =
        .respond (InternalServerErrHandler (applyCloseHeader c)) s true ∧
      (InternalServerErrHandler (applyCloseHeader c)).StatusCode = 500) := by
  have hfm : reMatch filesPat c.req.RequestTarget = true := reMatch_of_reCapture hcap
  constructor
  · intro hdir
    refine ⟨?_, rfl⟩
    simp only [handleRequest, applyCloseHeader_req, if_neg hroot, if_neg hua, hecho,
      Bool.false_eq_true, if_false, hfm, if_true, if_neg hdir, hcap, Option.getD_some,
      if_pos rfl]
  · intro hdir
    subst hdir
    refine ⟨?_, rfl⟩
    simp only [handleRequest, applyCloseHeader_req, if_neg hroot, if_neg hua, hecho,
      Bool.false_eq_true, if_false, hfm, if_true, if_pos rfl]

/-- Witness for the amended C7 at GET /files/ with directory "d". -/
theorem claim_C7_files_amended_witness :
    handleRequest id fsTriv (listOf "d")
      ⟨⟨listOf "GET", listOf "/files/", listOf "HTTP/1.1", []⟩, ⟨0, [], []⟩⟩ [] =
      .respond (BadReqHandler (applyCloseHeader
        ⟨⟨listOf "GET", listOf "/files/", listOf "HTTP/1.1", []⟩, ⟨0, [], []⟩⟩)) [] true ∧
    (BadReqHandler (applyCloseHeader
      ⟨⟨listOf "GET", listOf "/files/", listOf "HTTP/1.1", []⟩, ⟨0, [], []⟩⟩)).StatusCode
      = 400 :=
  (claim_C7_files_amended id fsTriv (listOf "d")
    ⟨⟨listOf "GET", listOf "/files/", listOf "HTTP/1.1", []⟩, ⟨0, [], []⟩⟩ []
    (by decide) (by decide) (by decide) (by decide)).1 (by decide)

/-- C10 counterexample: the target "/foo/echo/a" followed by a newline
and "b" contains "/echo/", and everything after the first occurrence is
"a\nb", but the regex capture used for dispatch stops at the newline and
yields only "a" (the dot of the Go regexp does not match a newline); the
echo endpoint therefore answers with body "a", not with everything to the
end of the target. -/
theorem claim_C10_counterexample :
    afterFirst echoPat (listOf "/foo/echo/a\nb") = some (listOf "a\nb") ∧
    reCapture echoPat (listOf "/foo/echo/a\nb") = some (listOf "a") ∧
    decide ((listOf "a" : List Char) = listOf "a\nb") = false ∧
    handleRequest id fsTriv []
      ⟨⟨listOf "GET", listOf "/foo/echo/a\nb", listOf "HTTP/1.1", []⟩, ⟨0, [], []⟩⟩ [] =
      .respond ⟨200, listOf "OK", [(listOf "Content-Type", listOf "text/plain"),
        (listOf "Content-Length", listOf "1")], listOf "a"⟩ [] false :=
  ⟨by decide, by decide, by decide, by decide⟩

/-- The capture when the first occurrence of the pattern literal sits
right after `pre`: no occurrence starts earlier, so the returned suffix
is exactly `post`. -/
theorem afterFirst_first_occ :
    ∀ (pre pat post : List Char),
      (∀ i, i < pre.length → leadsWith pat ((pre ++ (pat ++ post)).drop i) = false) →
      afterFirst pat (pre ++ (pat ++ post)) = some post := by
  intro pre
  induction pre with
  | nil =>
    intro pat post _
    rw [List.nil_append,
      afterFirst_of_leadsWith ((leadsWith_iff pat (pat ++ post)).2 ⟨post, rfl⟩),
      List.drop_left]
  | cons x pre ih =>
    intro pat post H
    have h0 : leadsWith pat (x :: (pre ++ (pat ++ post))) = false := by
      have := H 0 (by simp)
      simpa using this
    show afterFirst pat (x :: (pre ++ (pat ++ post))) = some post
    rw [afterFirst, if_neg (by simp [h0])]
    exact ih pat post (fun i hi => by
      have := H (i + 1) (by simpa using Nat.succ_lt_succ hi)
      simpa using this)

/-- C10 amended: route matching is an unanchored substring search — a
target in which the pattern literal first occurs after `pre` matches, and
the captured value is everything after that first occurrence up to but
excluding the first newline (hence everything to the end whenever the
remainder contains no newline); and any target that is not exactly "/"
or "/user-agent" but matches the echo pattern dispatches to the echo
endpoint. -/
theorem claim_C10_routing_amended :
    (∀ pat pre post : List Char,
      (∀ i, i < pre.length → leadsWith pat ((pre ++ (pat ++ post)).drop i) = false) →
      afterFirst pat (pre ++ (pat ++ post)) = some post ∧
      reCapture pat (pre ++ (pat ++ post)) =
        some (post.takeWhile (fun c => c != '\n')) ∧
      reMatch pat (pre ++ (pat ++ post)) = true) ∧
    (∀ (cp : List Char → List Char) (fs : FileStore) (dir : List Char)
      (c : ConnHandler) (s : List Char),
      c.req.RequestTarget ≠ listOf "/" →
      c.req.RequestTarget ≠ listOf "/user-agent" →
      reMatch echoPat c.req.RequestTarget = true →
      handleRequest cp fs dir c s =
        .respond (EchoHandler cp (applyCloseHeader c)) s (shouldCloseConn c)) := by
  constructor
  · intro pat pre post H
    have hmain := afterFirst_first_occ pre pat post H
    refine ⟨hmain, ?_, ?_⟩
    · rw [reCapture, hmain]
      rfl
    · rw [reMatch, hmain]
      rfl
  · intro cp fs dir c s hroot hua hecho
    simp only [handleRequest, applyCloseHeader_req, if_neg hroot, if_neg hua, hecho,
      if_true]

/-- Witness for the amended C10: "/x/echo/hey" captures "hey". -/
theorem claim_C10_routing_amended_witness :
    afterFirst echoPat (listOf "/x" ++ (echoPat ++ listOf "hey")) = some (listOf "hey") ∧
    reCapture echoPat (listOf "/x" ++ (echoPat ++ listOf "hey")) =
      some ((listOf "hey").takeWhile (fun c => c != '\n')) ∧
    reMatch echoPat (listOf "/x" ++ (echoPat ++ listOf "hey")) = true :=
  claim_C10_routing_amended.1 echoPat (listOf "/x") (listOf "hey") (by decide)
